import Mathlib

/-!
Shallow embedding of the persistence core of the optimism indexer
(indexer/db/db.go): the transactional ingestion engine, the withdrawal
correlation upsert, and the paginated query engine, together with proofs
of the specified properties.

Tables are modelled as lists of rows (append order = insertion order);
the SQL UNIQUE and FOREIGN KEY constraints declared by the schema are
modelled as explicit checks in the insert statements, and SQL INNER JOIN
as a list product filtered on the join condition.  Errors returned by
the database driver are values of DBErr; a Go runtime panic is a
separate observable outcome (GoResult.panicked).
-/

/-- ERC20 token metadata, as in the Go struct Token (db.go callers). -/
structure Token where
  name : String
  symbol : String
  decimals : Nat
deriving Repr, DecidableEq

/-- A row of the l1_tokens / l2_tokens table: address is the key. -/
structure TokenRow where
  address : String
  name : String
  symbol : String
  decimals : Nat
deriving Repr, DecidableEq

/-- A row of the l1_blocks / l2_blocks table. -/
structure BlockRow where
  hash : String
  parentHash : String
  number : Nat
  timestamp : Nat
deriving Repr, DecidableEq

/-- A row of the deposits table. -/
structure DepositRow where
  guid : Nat
  fromAddress : String
  toAddress : String
  l1Token : String
  l2Token : String
  amount : String
  txHash : String
  logIndex : Nat
  l1BlockHash : String
  data : String
deriving Repr, DecidableEq

/-- A row of the withdrawals table.  tx_hash is UNIQUE; the two block
linkage columns are nullable (Option). -/
structure WithdrawalRow where
  guid : Nat
  fromAddress : String
  toAddress : String
  l1Token : String
  l2Token : String
  amount : String
  txHash : String
  logIndex : Nat
  l1BlockHash : Option String
  l2BlockHash : Option String
  data : String
deriving Repr, DecidableEq

/-- A deposit event handed to AddIndexedL1Block (fields of the Go
Deposit struct that db.go reads). -/
structure Deposit where
  fromAddress : String
  toAddress : String
  l1Token : String
  l2Token : String
  amount : String
  txHash : String
  logIndex : Nat
  data : String
deriving Repr, DecidableEq

/-- A withdrawal event handed to AddIndexedL1Block or AddIndexedL2Block. -/
structure Withdrawal where
  fromAddress : String
  toAddress : String
  l1Token : String
  l2Token : String
  amount : String
  txHash : String
  logIndex : Nat
  data : String
deriving Repr, DecidableEq

/-- The Go IndexedL1Block: an L1 block together with the deposit and
withdrawal events scanned from it. -/
structure IndexedL1Block where
  hash : String
  parentHash : String
  number : Nat
  timestamp : Nat
  deposits : List Deposit
  withdrawals : List Withdrawal
deriving Repr, DecidableEq

/-- The Go IndexedL2Block: an L2 block together with the withdrawal
events scanned from it. -/
structure IndexedL2Block where
  hash : String
  parentHash : String
  number : Nat
  timestamp : Nat
  withdrawals : List Withdrawal
deriving Repr, DecidableEq

/-- The persisted database state: one list per table, plus the counter
backing the identifier generator.  List order is row insertion order. -/
structure DBState where
  l1Tokens : List TokenRow
  l2Tokens : List TokenRow
  l1Blocks : List BlockRow
  l2Blocks : List BlockRow
  deposits : List DepositRow
  withdrawals : List WithdrawalRow
  nextGuid : Nat
deriving Repr, DecidableEq

/-- The empty database, as produced by schema initialization. -/
def DBState.empty : DBState := ⟨[], [], [], [], [], [], 0⟩

/-- Errors surfaced by the storage backend. -/
inductive DBErr where
  | uniqueViolation (constraintName : String)
  | fkViolation (constraintName : String)
  | noRows
deriving Repr, DecidableEq

/-- Outcome of a Go function call: a normal return value, a returned
error, or a runtime panic. -/
inductive GoResult (α : Type) where
  | ok (val : α)
  | err (e : DBErr)
  | panicked (msg : String)
deriving Repr, DecidableEq

/-- Modelled from the spec: the opaque unique-identifier generator
(NewGUID, defined outside db.go) mints a fresh identifier per call; it
is modelled as a counter threaded through the state. -/
def NewGUID (st : DBState) : Nat × DBState :=
  (st.nextGuid, { st with nextGuid := st.nextGuid + 1 })

/-- Modelled from the spec: the txn helper (defined outside db.go) runs
the body inside a transaction; if the body returns an error the whole
transaction rolls back (the prior state is kept) and the error is
surfaced, otherwise the new state commits. -/
def txn (st : DBState) (body : DBState → Except DBErr DBState) :
    DBState × Option DBErr :=
  match body st with
  | .ok st2 => (st2, none)
  | .error e => (st, some e)

/-- INSERT INTO l1_blocks (hash, parent_hash, number, timestamp):
fails on a duplicate hash (UNIQUE constraint), else appends the row. -/
def insertL1BlockStmt (st : DBState) (b : BlockRow) : Except DBErr DBState :=
  if st.l1Blocks.any (fun r => r.hash = b.hash) then
    .error (.uniqueViolation "l1_blocks_hash_key")
  else
    .ok { st with l1Blocks := st.l1Blocks ++ [b] }

/-- INSERT INTO l2_blocks (hash, parent_hash, number, timestamp):
fails on a duplicate hash (UNIQUE constraint), else appends the row. -/
def insertL2BlockStmt (st : DBState) (b : BlockRow) : Except DBErr DBState :=
  if st.l2Blocks.any (fun r => r.hash = b.hash) then
    .error (.uniqueViolation "l2_blocks_hash_key")
  else
    .ok { st with l2Blocks := st.l2Blocks ++ [b] }

/-- INSERT INTO deposits (guid, from_address, to_address, l1_token,
l2_token, amount, tx_hash, log_index, l1_block_hash, data): the
l1_block_hash column references l1_blocks(hash). -/
def insertDepositStmt (st : DBState) (d : DepositRow) : Except DBErr DBState :=
  if st.l1Blocks.any (fun r => r.hash = d.l1BlockHash) then
    .ok { st with deposits := st.deposits ++ [d] }
  else
    .error (.fkViolation "deposits_l1_block_hash_fkey")

/-- The withdrawal insert of AddIndexedL1Block: INSERT INTO withdrawals
... ON CONFLICT (tx_hash) DO UPDATE SET l1_block_hash = excluded value.
On a tx_hash conflict only the l1_block_hash column of the existing row
is updated, with the FK on the freshly assigned value enforced exactly
as on the insert arm; without conflict the fresh row is appended (its
l1_block_hash must reference an existing l1 block). -/
def insertWithdrawalL1Stmt (st : DBState) (w : WithdrawalRow) :
    Except DBErr DBState :=
  if st.withdrawals.any (fun r => r.txHash = w.txHash) then
    match w.l1BlockHash with
    | some h =>
        if st.l1Blocks.any (fun r => r.hash = h) then
          .ok { st with
                withdrawals := st.withdrawals.map (fun r =>
                  if r.txHash = w.txHash then { r with l1BlockHash := w.l1BlockHash }
                  else r) }
        else
          .error (.fkViolation "withdrawals_l1_block_hash_fkey")
    | none =>
        .ok { st with
              withdrawals := st.withdrawals.map (fun r =>
                if r.txHash = w.txHash then { r with l1BlockHash := w.l1BlockHash }
                else r) }
  else
    match w.l1BlockHash with
    | some h =>
        if st.l1Blocks.any (fun r => r.hash = h) then
          .ok { st with withdrawals := st.withdrawals ++ [w] }
        else
          .error (.fkViolation "withdrawals_l1_block_hash_fkey")
    | none => .ok { st with withdrawals := st.withdrawals ++ [w] }

/-- The withdrawal insert of AddIndexedL2Block: a plain INSERT INTO
withdrawals (no ON CONFLICT clause); a row with the same tx_hash makes
it fail with a unique-constraint violation. -/
def insertWithdrawalL2Stmt (st : DBState) (w : WithdrawalRow) :
    Except DBErr DBState :=
  if st.withdrawals.any (fun r => r.txHash = w.txHash) then
    .error (.uniqueViolation "withdrawals_tx_hash_key")
  else
    match w.l2BlockHash with
    | some h =>
        if st.l2Blocks.any (fun r => r.hash = h) then
          .ok { st with withdrawals := st.withdrawals ++ [w] }
        else
          .error (.fkViolation "withdrawals_l2_block_hash_fkey")
    | none => .ok { st with withdrawals := st.withdrawals ++ [w] }

/-- The deposit row built by the loop body of AddIndexedL1Block. -/
def depositRowOfEvent (guid : Nat) (blockHash : String) (d : Deposit) :
    DepositRow :=
  ⟨guid, d.fromAddress, d.toAddress, d.l1Token, d.l2Token, d.amount,
   d.txHash, d.logIndex, blockHash, d.data⟩

/-- The withdrawal row built by the loop body of AddIndexedL1Block:
l1_block_hash is the ingested block, l2_block_hash is not among the
inserted columns (NULL). -/
def withdrawalRowOfL1Event (guid : Nat) (blockHash : String)
    (w : Withdrawal) : WithdrawalRow :=
  ⟨guid, w.fromAddress, w.toAddress, w.l1Token, w.l2Token, w.amount,
   w.txHash, w.logIndex, some blockHash, none, w.data⟩

/-- The withdrawal row built by the loop body of AddIndexedL2Block:
l2_block_hash is the ingested block, l1_block_hash is not among the
inserted columns (NULL). -/
def withdrawalRowOfL2Event (guid : Nat) (blockHash : String)
    (w : Withdrawal) : WithdrawalRow :=
  ⟨guid, w.fromAddress, w.toAddress, w.l1Token, w.l2Token, w.amount,
   w.txHash, w.logIndex, none, some blockHash, w.data⟩

/-- The deposit loop of AddIndexedL1Block: one insert per deposit event,
aborting on the first error. -/
def insertDepositsLoop (blockHash : String) :
    DBState → List Deposit → Except DBErr DBState
  | st, [] => .ok st
  | st, d :: rest =>
      match NewGUID st with
      | (g, st1) =>
          match insertDepositStmt st1 (depositRowOfEvent g blockHash d) with
          | .error e => .error e
          | .ok st2 => insertDepositsLoop blockHash st2 rest

/-- The withdrawal loop of AddIndexedL1Block: one conflict-aware upsert
per withdrawal event, aborting on the first error. -/
def insertWithdrawalsL1Loop (blockHash : String) :
    DBState → List Withdrawal → Except DBErr DBState
  | st, [] => .ok st
  | st, w :: rest =>
      match NewGUID st with
      | (g, st1) =>
          match insertWithdrawalL1Stmt st1 (withdrawalRowOfL1Event g blockHash w) with
          | .error e => .error e
          | .ok st2 => insertWithdrawalsL1Loop blockHash st2 rest

/-- The withdrawal loop of AddIndexedL2Block: one plain insert per
withdrawal event, aborting on the first error. -/
def insertWithdrawalsL2Loop (blockHash : String) :
    DBState → List Withdrawal → Except DBErr DBState
  | st, [] => .ok st
  | st, w :: rest =>
      match NewGUID st with
      | (g, st1) =>
          match insertWithdrawalL2Stmt st1 (withdrawalRowOfL2Event g blockHash w) with
          | .error e => .error e
          | .ok st2 => insertWithdrawalsL2Loop blockHash st2 rest

/-- The transaction body of AddIndexedL1Block.  Faithful to the source:
after the block insert, an empty deposit list returns early (source
line 222), which also skips the withdrawal loop; an empty withdrawal
list returns after the deposit loop. -/
def addIndexedL1BlockBody (block : IndexedL1Block) (st : DBState) :
    Except DBErr DBState :=
  match insertL1BlockStmt st
      ⟨block.hash, block.parentHash, block.number, block.timestamp⟩ with
  | .error e => .error e
  | .ok st1 =>
      if block.deposits.length = 0 then .ok st1
      else
        match insertDepositsLoop block.hash st1 block.deposits with
        | .error e => .error e
        | .ok st2 =>
            if block.withdrawals.length = 0 then .ok st2
            else insertWithdrawalsL1Loop block.hash st2 block.withdrawals

/-- AddIndexedL1Block: insert the L1 block and its events in one
transaction; on any error the transaction rolls back. -/
def AddIndexedL1Block (st : DBState) (block : IndexedL1Block) :
    DBState × Option DBErr :=
  txn st (addIndexedL1BlockBody block)

/-- The transaction body of AddIndexedL2Block: block insert, then the
withdrawal loop unless the withdrawal list is empty. -/
def addIndexedL2BlockBody (block : IndexedL2Block) (st : DBState) :
    Except DBErr DBState :=
  match insertL2BlockStmt st
      ⟨block.hash, block.parentHash, block.number, block.timestamp⟩ with
  | .error e => .error e
  | .ok st1 =>
      if block.withdrawals.length = 0 then .ok st1
      else insertWithdrawalsL2Loop block.hash st1 block.withdrawals

/-- AddIndexedL2Block: insert the L2 block and its withdrawals in one
transaction; on any error the transaction rolls back. -/
def AddIndexedL2Block (st : DBState) (block : IndexedL2Block) :
    DBState × Option DBErr :=
  txn st (addIndexedL2BlockBody block)

/-- AddL1Token: INSERT INTO l1_tokens (address, name, symbol, decimals);
the address is the key, a duplicate fails. -/
def AddL1Token (st : DBState) (address : String) (token : Token) :
    DBState × Option DBErr :=
  txn st (fun s =>
    if s.l1Tokens.any (fun r => r.address = address) then
      .error (.uniqueViolation "l1_tokens_pkey")
    else
      .ok { s with l1Tokens := s.l1Tokens ++
              [⟨address, token.name, token.symbol, token.decimals⟩] })

/-- AddL2Token: INSERT INTO l2_tokens (address, name, symbol, decimals);
the address is the key, a duplicate fails. -/
def AddL2Token (st : DBState) (address : String) (token : Token) :
    DBState × Option DBErr :=
  txn st (fun s =>
    if s.l2Tokens.any (fun r => r.address = address) then
      .error (.uniqueViolation "l2_tokens_pkey")
    else
      .ok { s with l2Tokens := s.l2Tokens ++
              [⟨address, token.name, token.symbol, token.decimals⟩] })

/-- Pagination parameters and the total filled in by the query
(the Go PaginationParam has Limit, Offset and Total). -/
structure PaginationParam where
  limit : Nat
  offset : Nat
  total : Nat
deriving Repr, DecidableEq

/-- The joined deposit view returned by GetDepositsByAddress (the Go
DepositJSON together with the scanned l1 token metadata). -/
structure DepositJSON where
  guid : Nat
  fromAddress : String
  toAddress : String
  amount : String
  txHash : String
  data : String
  l1Token : TokenRow
  l2Token : String
  blockNumber : Nat
  blockTimestamp : Nat
deriving Repr, DecidableEq

/-- The joined withdrawal view (the Go WithdrawalJSON).  The listing
query scans only the l2 block columns; the status query scans both.
Unscanned columns keep the Go zero value 0. -/
structure WithdrawalJSON where
  guid : Nat
  fromAddress : String
  toAddress : String
  amount : String
  txHash : String
  data : String
  l1Token : String
  l2Token : TokenRow
  l1BlockNumber : Nat
  l1BlockTimestamp : Nat
  l2BlockNumber : Nat
  l2BlockTimestamp : Nat
deriving Repr, DecidableEq

/-- INNER JOIN of one deposit row against l1_blocks (on l1_block_hash =
hash) and l1_tokens (on l1_token = address): one result row per pair of
matching joined rows. -/
def depositJoinRows (st : DBState) (d : DepositRow) : List DepositJSON :=
  (st.l1Blocks.filter (fun b => b.hash = d.l1BlockHash)).flatMap (fun b =>
    (st.l1Tokens.filter (fun t => t.address = d.l1Token)).map (fun t =>
      ⟨d.guid, d.fromAddress, d.toAddress, d.amount, d.txHash, d.data,
       t, d.l2Token, b.number, b.timestamp⟩))

/-- All joined deposit rows with the given from_address, in table
order (before ORDER BY).  This is also what the count(*) query of
GetDepositsByAddress counts. -/
def depositsMatching (st : DBState) (address : String) : List DepositJSON :=
  (st.deposits.filter (fun d => d.fromAddress = address)).flatMap
    (depositJoinRows st)

/-- ORDER BY l1_blocks.timestamp, modelled as a stable sort (rows with
equal timestamps stay in insertion order). -/
def sortedDeposits (st : DBState) (address : String) : List DepositJSON :=
  List.insertionSort (fun a b => a.blockTimestamp ≤ b.blockTimestamp)
    (depositsMatching st address)

/-- GetDepositsByAddress: the page query (filter, join, order, OFFSET
then LIMIT) and the count(*) query over the same join and filter. -/
def GetDepositsByAddress (st : DBState) (address : String)
    (page : PaginationParam) : PaginationParam × List DepositJSON :=
  let rows := ((sortedDeposits st address).drop page.offset).take page.limit
  let count := (depositsMatching st address).length
  ({ page with total := count }, rows)

/-- INNER JOIN of one withdrawal row against l2_blocks (on
l2_block_hash = hash, never matched by a NULL linkage) and l2_tokens
(on l2_token = address), as in the listing query. -/
def withdrawalListJoinRows (st : DBState) (w : WithdrawalRow) :
    List WithdrawalJSON :=
  (st.l2Blocks.filter (fun b => w.l2BlockHash = some b.hash)).flatMap (fun b =>
    (st.l2Tokens.filter (fun t => t.address = w.l2Token)).map (fun t =>
      ⟨w.guid, w.fromAddress, w.toAddress, w.amount, w.txHash, w.data,
       w.l1Token, t, 0, 0, b.number, b.timestamp⟩))

/-- All joined withdrawal rows with the given from_address, in table
order.  This is also what the count(*) query of GetWithdrawalsByAddress
counts. -/
def withdrawalsMatching (st : DBState) (address : String) :
    List WithdrawalJSON :=
  (st.withdrawals.filter (fun w => w.fromAddress = address)).flatMap
    (withdrawalListJoinRows st)

/-- ORDER BY l2_blocks.timestamp, modelled as a stable sort. -/
def sortedWithdrawals (st : DBState) (address : String) :
    List WithdrawalJSON :=
  List.insertionSort (fun a b => a.l2BlockTimestamp ≤ b.l2BlockTimestamp)
    (withdrawalsMatching st address)

/-- GetWithdrawalsByAddress: the page query and the count(*) query over
the same join and filter. -/
def GetWithdrawalsByAddress (st : DBState) (address : String)
    (page : PaginationParam) : PaginationParam × List WithdrawalJSON :=
  let rows := ((sortedWithdrawals st address).drop page.offset).take page.limit
  let count := (withdrawalsMatching st address).length
  ({ page with total := count }, rows)

/-- The rows of the GetWithdrawalStatus query: the withdrawal with the
given tx_hash inner-joined against l1_blocks, l2_blocks and l2_tokens;
a row in Initiated state (l1_block_hash NULL) never joins. -/
def withdrawalStatusRows (st : DBState) (h : String) : List WithdrawalJSON :=
  (st.withdrawals.filter (fun w => w.txHash = h)).flatMap (fun w =>
    (st.l1Blocks.filter (fun b => w.l1BlockHash = some b.hash)).flatMap (fun b1 =>
      (st.l2Blocks.filter (fun b => w.l2BlockHash = some b.hash)).flatMap (fun b2 =>
        (st.l2Tokens.filter (fun t => t.address = w.l2Token)).map (fun t =>
          ⟨w.guid, w.fromAddress, w.toAddress, w.amount, w.txHash, w.data,
           w.l1Token, t, b1.number, b1.timestamp, b2.number, b2.timestamp⟩))))

/-- GetWithdrawalStatus, faithful to the source: the result pointer is
declared nil (var withdrawal *WithdrawalJSON), and the call
row.Scan(&withdrawal.GUID, ...) evaluates the field addresses of that
nil pointer before scanning, which is a runtime panic on every path.
The dead some branch records what the scan would do: the first joined
row if any, and the sql.ErrNoRows scan error surfaced as a returned
error (not as an absent result) when the query yields no row. -/
def GetWithdrawalStatus (st : DBState) (h : String) :
    GoResult (Option WithdrawalJSON) :=
  let withdrawal : Option WithdrawalJSON := none
  match withdrawal with
  | none =>
      .panicked "runtime error: invalid memory address or nil pointer dereference"
  | some _ =>
      match withdrawalStatusRows st h with
      | [] => .err .noRows
      | r :: _ => .ok (some r)

/-! Concrete scenario used by several witnesses: withdrawal 0xabc is
initiated in L2 block 0xD and finalized in L1 block 0xO. -/

/-- The running example withdrawal event (transaction hash 0xabc). -/
def wEx : Withdrawal := ⟨"alice", "bob", "t1", "t2", "100", "0xabc", 0, "dat"⟩

/-- The running example deposit event. -/
def depEx : Deposit := ⟨"carol", "dave", "t1", "t2", "7", "0xdep", 1, "dd"⟩

/-- The destination (L2) block carrying the initiation of 0xabc. -/
def blkDEx : IndexedL2Block := ⟨"0xD", "0xD0", 5, 50, [wEx]⟩

/-- The origin (L1) block carrying one deposit and the finalization of
0xabc. -/
def blkOEx : IndexedL1Block := ⟨"0xO", "0xO0", 9, 90, [depEx], [wEx]⟩

/-- The origin (L1) block carrying the finalization of 0xabc and no
deposit events. -/
def blkONoDeposits : IndexedL1Block := ⟨"0xO", "0xO0", 9, 90, [], [wEx]⟩

/-- C3 (code_bug evidence): ingesting an L1 block whose deposit list is
empty but whose withdrawal list is not succeeds while silently skipping
every withdrawal event: the early return taken when the deposit list is
empty (db.go line 222) sits before the withdrawal loop, so the
finalization of 0xabc is never applied and the withdrawals table stays
empty. -/
theorem c3_l1_withdrawals_skipped_when_no_deposits :
    (AddIndexedL1Block DBState.empty blkONoDeposits).2 = none ∧
    (AddIndexedL1Block DBState.empty blkONoDeposits).1.withdrawals = [] ∧
    blkONoDeposits.withdrawals ≠ [] := by
  refine ⟨rfl, rfl, ?_⟩
  decide

/-- C5 (code_bug evidence): a GetWithdrawalStatus lookup for a hash with
no matching row does not return an explicit absent result: the call
panics through the nil result pointer before the scan can even report
sql.ErrNoRows (which the code would in turn surface as an error, since
unlike the token getters it never maps ErrNoRows to an absent result). -/
theorem c5_status_lookup_never_reports_absent :
    withdrawalStatusRows DBState.empty "0xabc" = [] ∧
    GetWithdrawalStatus DBState.empty "0xabc" =
      .panicked "runtime error: invalid memory address or nil pointer dereference" ∧
    ∀ (st : DBState) (h : String), GetWithdrawalStatus st h ≠ .ok none :=
  ⟨rfl, rfl, fun _ _ => by simp [GetWithdrawalStatus]⟩

/-- C8: the result pointer of GetWithdrawalStatus is declared nil and
the scan call takes field addresses through it, so even on an input
with a fully joined withdrawals row the call panics instead of
returning the populated view, and no input ever yields a non-absent ok
result. -/
theorem c8_status_scan_derefs_nil_pointer :
    ∀ (st : DBState) (h : String),
      (withdrawalStatusRows st h ≠ [] →
        GetWithdrawalStatus st h =
          .panicked "runtime error: invalid memory address or nil pointer dereference") ∧
      (∀ v, GetWithdrawalStatus st h ≠ .ok (some v)) := by
  intro st h
  exact ⟨fun _ => rfl, fun v => by simp [GetWithdrawalStatus]⟩

/-- A database state holding the fully joined withdrawal 0xabc: both
blocks ingested and the l2 token registered. -/
def stJoined : DBState :=
  ⟨[], [⟨"t2", "TokenTwo", "T2", 18⟩],
   [⟨"0xO", "0xO0", 9, 90⟩], [⟨"0xD", "0xD0", 5, 50⟩], [],
   [⟨0, "alice", "bob", "t1", "t2", "100", "0xabc", 0, some "0xO", some "0xD", "dat"⟩], 1⟩

/-- Witness for C8 at the state holding a fully joined row for 0xabc. -/
theorem c8_witness :
    withdrawalStatusRows stJoined "0xabc" ≠ [] ∧
    GetWithdrawalStatus stJoined "0xabc" =
      .panicked "runtime error: invalid memory address or nil pointer dereference" :=
  ⟨by decide, (c8_status_scan_derefs_nil_pointer stJoined "0xabc").1 (by decide)⟩

/-- C4: whenever AddIndexedL1Block or AddIndexedL2Block surfaces an
error, the whole transaction has rolled back and the persisted state is
exactly the state before the call, so neither the block row nor any of
its events is visible. -/
theorem c4_failed_ingestion_rolls_back :
    ∀ (st : DBState) (b1 : IndexedL1Block) (b2 : IndexedL2Block),
      (∀ e, (AddIndexedL1Block st b1).2 = some e → (AddIndexedL1Block st b1).1 = st) ∧
      (∀ e, (AddIndexedL2Block st b2).2 = some e → (AddIndexedL2Block st b2).1 = st) := by
  intro st b1 b2
  constructor
  · intro e
    unfold AddIndexedL1Block txn
    cases addIndexedL1BlockBody b1 st <;> simp
  · intro e
    unfold AddIndexedL2Block txn
    cases addIndexedL2BlockBody b2 st <;> simp

/-- A state already holding L1 block 0xO, so re-ingesting it is a
duplicate-hash failure. -/
def stWithBlockO : DBState := ⟨[], [], [⟨"0xO", "0xO0", 9, 90⟩], [], [], [], 0⟩

/-- Witness for C4: re-ingesting block 0xO fails with the duplicate
hash error and leaves the state untouched. -/
theorem c4_witness :
    (AddIndexedL1Block stWithBlockO blkOEx).2 = some (.uniqueViolation "l1_blocks_hash_key") ∧
    (AddIndexedL1Block stWithBlockO blkOEx).1 = stWithBlockO :=
  ⟨by decide,
   (c4_failed_ingestion_rolls_back stWithBlockO blkOEx blkDEx).1
     (.uniqueViolation "l1_blocks_hash_key") (by decide)⟩

/-- A successful plain L2 withdrawal insert always appends the row. -/
theorem insertWithdrawalL2Stmt_ok_append (st : DBState) (w : WithdrawalRow)
    (st2 : DBState) (h : insertWithdrawalL2Stmt st w = .ok st2) :
    st2.withdrawals = st.withdrawals ++ [w] := by
  unfold insertWithdrawalL2Stmt at h
  split at h
  · cases h
  · split at h
    · split at h
      · cases h; rfl
      · cases h
    · cases h; rfl

/-- If some event in the list shares a tx_hash with a row already in
the table, the plain-insert loop of AddIndexedL2Block fails. -/
theorem insertWithdrawalsL2Loop_conflict (bh : String) :
    ∀ (events : List Withdrawal) (st : DBState) (r : WithdrawalRow) (w : Withdrawal),
      r ∈ st.withdrawals → w ∈ events → r.txHash = w.txHash →
      ∃ e, insertWithdrawalsL2Loop bh st events = .error e := by
  intro events
  induction events with
  | nil => intro st r w _ hw _; cases hw
  | cons w0 rest ih =>
    intro st r w hr hw hx
    cases hw with
    | head =>
      have hconf : ({ st with nextGuid := st.nextGuid + 1 } : DBState).withdrawals.any
          (fun r2 => r2.txHash = (withdrawalRowOfL2Event st.nextGuid bh w0).txHash) = true := by
        refine List.any_eq_true.mpr ⟨r, hr, ?_⟩
        simp [withdrawalRowOfL2Event, hx]
      exact ⟨.uniqueViolation "withdrawals_tx_hash_key",
        by simp [insertWithdrawalsL2Loop, NewGUID, insertWithdrawalL2Stmt, hconf]⟩
    | tail _ hw2 =>
      cases heq : insertWithdrawalL2Stmt { st with nextGuid := st.nextGuid + 1 }
          (withdrawalRowOfL2Event st.nextGuid bh w0) with
      | error e => exact ⟨e, by simp [insertWithdrawalsL2Loop, NewGUID, heq]⟩
      | ok st2 =>
        have hr2 : r ∈ st2.withdrawals := by
          rw [insertWithdrawalL2Stmt_ok_append _ _ _ heq]
          exact List.mem_append_left _ hr
        obtain ⟨e, he⟩ := ih st2 r w hr2 hw2 hx
        exact ⟨e, by simp [insertWithdrawalsL2Loop, NewGUID, heq, he]⟩

/-- C2 (amended): an L2 block ingestion carrying a withdrawal event
whose tx_hash already has a row fails with an error and rolls back
completely: the state is returned unchanged, so no second row for that
tx_hash is ever created, but the ingestion does fail. -/
theorem c2_l2_conflicting_ingestion_fails_and_rolls_back :
    ∀ (st : DBState) (blk : IndexedL2Block) (r : WithdrawalRow) (w : Withdrawal),
      r ∈ st.withdrawals → w ∈ blk.withdrawals → r.txHash = w.txHash →
      ∃ e, AddIndexedL2Block st blk = (st, some e) := by
  intro st blk r w hr hw hx
  unfold AddIndexedL2Block txn addIndexedL2BlockBody
  cases heq : insertL2BlockStmt st ⟨blk.hash, blk.parentHash, blk.number, blk.timestamp⟩ with
  | error e => exact ⟨e, by simp [heq]⟩
  | ok st1 =>
    have hwd : st1.withdrawals = st.withdrawals := by
      unfold insertL2BlockStmt at heq
      split at heq
      · cases heq
      · cases heq; rfl
    have hlen : ¬ blk.withdrawals.length = 0 := by
      intro h0
      rw [List.length_eq_zero] at h0
      rw [h0] at hw
      cases hw
    obtain ⟨e, he⟩ := insertWithdrawalsL2Loop_conflict blk.hash blk.withdrawals st1 r w
      (by rw [hwd]; exact hr) hw hx
    exact ⟨e, by simp [heq, hlen, he]⟩

/-- The state after ingesting the finalization block 0xO first (one
deposit, one withdrawal finalizing 0xabc with no initiation yet). -/
def stAfterF : DBState := (AddIndexedL1Block DBState.empty blkOEx).1

/-- C2 (counterexample): with the finalization of 0xabc already in the
table, ingesting the initiation block 0xD fails with the tx_hash
unique-constraint violation, against the claim that such an ingestion
does not fail. -/
theorem c2_counterexample :
    stAfterF.withdrawals.any (fun r => r.txHash = "0xabc") = true ∧
    (AddIndexedL2Block stAfterF blkDEx).2 =
      some (.uniqueViolation "withdrawals_tx_hash_key") := by
  constructor
  · decide
  · decide

/-- Witness for the amended C2 at the concrete scenario. -/
theorem c2_witness :
    ∃ e, AddIndexedL2Block stAfterF blkDEx = (stAfterF, some e) :=
  c2_l2_conflicting_ingestion_fails_and_rolls_back stAfterF blkDEx
    ⟨1, "alice", "bob", "t1", "t2", "100", "0xabc", 0, some "0xO", none, "dat"⟩
    wEx (by decide) (by decide) (by decide)

/-- C1 (counterexample): ingesting the finalization block first and the
initiation block second does not converge to a row carrying both block
references: the initiation ingestion fails (the plain L2 insert has no
conflict handling) and rolls back, leaving the lone 0xabc row with no
destination block hash at all. -/
theorem c1_counterexample :
    (AddIndexedL1Block DBState.empty blkOEx).2 = none ∧
    (AddIndexedL2Block stAfterF blkDEx).2 ≠ none ∧
    ((AddIndexedL2Block stAfterF blkDEx).1.withdrawals.filter
      (fun r => r.txHash = "0xabc")).length = 1 ∧
    ∀ r ∈ (AddIndexedL2Block stAfterF blkDEx).1.withdrawals,
      r.l2BlockHash ≠ some "0xD" := by
  refine ⟨by decide, by decide, by decide, by decide⟩

/-- C1 (amended): starting from an empty database, with the initiation
event wI carried by L2 block Dh and the finalization event wF (same
tx_hash) carried by L1 block Oh together with at least one deposit
(otherwise the early return of AddIndexedL1Block would skip it):
ingesting initiation first converges to exactly one row with both block
links; re-delivering the initiation block afterwards fails and changes
nothing; ingesting finalization first leaves exactly one row with only
the origin link, the subsequent initiation ingestion failing and
rolling back.  In every order exactly one row exists per tx_hash. -/
theorem c1_correlation_order_amended :
    ∀ (wI wF : Withdrawal) (dep : Deposit) (Dh Dp : String) (Dnum Dts : Nat)
      (Oh Op : String) (Onum Ots : Nat),
      wF.txHash = wI.txHash →
      ((AddIndexedL2Block DBState.empty ⟨Dh, Dp, Dnum, Dts, [wI]⟩).2 = none ∧
       (AddIndexedL1Block (AddIndexedL2Block DBState.empty ⟨Dh, Dp, Dnum, Dts, [wI]⟩).1
          ⟨Oh, Op, Onum, Ots, [dep], [wF]⟩).2 = none ∧
       (AddIndexedL1Block (AddIndexedL2Block DBState.empty ⟨Dh, Dp, Dnum, Dts, [wI]⟩).1
          ⟨Oh, Op, Onum, Ots, [dep], [wF]⟩).1.withdrawals =
         [⟨0, wI.fromAddress, wI.toAddress, wI.l1Token, wI.l2Token, wI.amount,
           wI.txHash, wI.logIndex, some Oh, some Dh, wI.data⟩]) ∧
      ((AddIndexedL2Block
          (AddIndexedL1Block (AddIndexedL2Block DBState.empty ⟨Dh, Dp, Dnum, Dts, [wI]⟩).1
            ⟨Oh, Op, Onum, Ots, [dep], [wF]⟩).1 ⟨Dh, Dp, Dnum, Dts, [wI]⟩).2 ≠ none ∧
       (AddIndexedL2Block
          (AddIndexedL1Block (AddIndexedL2Block DBState.empty ⟨Dh, Dp, Dnum, Dts, [wI]⟩).1
            ⟨Oh, Op, Onum, Ots, [dep], [wF]⟩).1 ⟨Dh, Dp, Dnum, Dts, [wI]⟩).1 =
         (AddIndexedL1Block (AddIndexedL2Block DBState.empty ⟨Dh, Dp, Dnum, Dts, [wI]⟩).1
            ⟨Oh, Op, Onum, Ots, [dep], [wF]⟩).1) ∧
      ((AddIndexedL1Block DBState.empty ⟨Oh, Op, Onum, Ots, [dep], [wF]⟩).2 = none ∧
       (AddIndexedL2Block (AddIndexedL1Block DBState.empty ⟨Oh, Op, Onum, Ots, [dep], [wF]⟩).1
          ⟨Dh, Dp, Dnum, Dts, [wI]⟩).2 ≠ none ∧
       (AddIndexedL2Block (AddIndexedL1Block DBState.empty ⟨Oh, Op, Onum, Ots, [dep], [wF]⟩).1
          ⟨Dh, Dp, Dnum, Dts, [wI]⟩).1.withdrawals =
         [⟨1, wF.fromAddress, wF.toAddress, wF.l1Token, wF.l2Token, wF.amount,
           wF.txHash, wF.logIndex, some Oh, none, wF.data⟩]) := by
  intro wI wF dep Dh Dp Dnum Dts Oh Op Onum Ots hx
  simp [AddIndexedL2Block, AddIndexedL1Block, txn, addIndexedL2BlockBody,
    addIndexedL1BlockBody, insertL2BlockStmt, insertL1BlockStmt,
    insertWithdrawalsL2Loop, insertWithdrawalsL1Loop, insertDepositsLoop,
    insertWithdrawalL2Stmt, insertWithdrawalL1Stmt, insertDepositStmt,
    NewGUID, withdrawalRowOfL2Event, withdrawalRowOfL1Event,
    depositRowOfEvent, DBState.empty, hx]

/-- Witness for the amended C1 at the concrete 0xabc scenario. -/
theorem c1_witness :
    (AddIndexedL1Block (AddIndexedL2Block DBState.empty blkDEx).1 blkOEx).1.withdrawals =
      [⟨0, "alice", "bob", "t1", "t2", "100", "0xabc", 0, some "0xO", some "0xD", "dat"⟩] ∧
    (AddIndexedL2Block (AddIndexedL1Block DBState.empty blkOEx).1 blkDEx).2 ≠ none := by
  have h := c1_correlation_order_amended wEx wEx depEx "0xD" "0xD0" 5 50 "0xO" "0xO0" 9 90 rfl
  exact ⟨h.1.2.2, h.2.2.2.1⟩

/-- Two withdrawal rows agreeing on every column other than the origin
block linkage l1_block_hash. -/
def sameExceptL1Link (old new : WithdrawalRow) : Prop :=
  new.guid = old.guid ∧ new.fromAddress = old.fromAddress ∧
  new.toAddress = old.toAddress ∧ new.l1Token = old.l1Token ∧
  new.l2Token = old.l2Token ∧ new.amount = old.amount ∧
  new.txHash = old.txHash ∧ new.logIndex = old.logIndex ∧
  new.l2BlockHash = old.l2BlockHash ∧ new.data = old.data

theorem sameExceptL1Link_refl (r : WithdrawalRow) : sameExceptL1Link r r :=
  ⟨rfl, rfl, rfl, rfl, rfl, rfl, rfl, rfl, rfl, rfl⟩

theorem sameExceptL1Link_trans {a b c : WithdrawalRow}
    (h1 : sameExceptL1Link a b) (h2 : sameExceptL1Link b c) :
    sameExceptL1Link a c := by
  obtain ⟨e1, e2, e3, e4, e5, e6, e7, e8, e9, e10⟩ := h1
  obtain ⟨f1, f2, f3, f4, f5, f6, f7, f8, f9, f10⟩ := h2
  exact ⟨f1.trans e1, f2.trans e2, f3.trans e3, f4.trans e4, f5.trans e5,
    f6.trans e6, f7.trans e7, f8.trans e8, f9.trans e9, f10.trans e10⟩

/-- C7: when the conflict-aware withdrawal insert of AddIndexedL1Block
hits an existing row with the same tx_hash, and the freshly assigned
origin link satisfies its foreign key (as it always does inside
AddIndexedL1Block, where the link is the block row inserted in the
same transaction), it succeeds and updates only the l1_block_hash
column: every row keeps its position, the conflicting rows get the new
origin link, and all other columns of every row (amount, addresses,
tokens, destination linkage, log index, payload) as well as every
other table are left unchanged. -/
theorem c7_upsert_updates_only_origin_link :
    ∀ (st : DBState) (w : WithdrawalRow) (r : WithdrawalRow),
      r ∈ st.withdrawals → r.txHash = w.txHash →
      (∀ h, w.l1BlockHash = some h → st.l1Blocks.any (fun b => b.hash = h) = true) →
      ∃ st2, insertWithdrawalL1Stmt st w = .ok st2 ∧
        st2.l1Tokens = st.l1Tokens ∧ st2.l2Tokens = st.l2Tokens ∧
        st2.l1Blocks = st.l1Blocks ∧ st2.l2Blocks = st.l2Blocks ∧
        st2.deposits = st.deposits ∧
        st2.withdrawals.length = st.withdrawals.length ∧
        ∀ (i : Nat) (h1 : i < st.withdrawals.length) (h2 : i < st2.withdrawals.length),
          sameExceptL1Link (st.withdrawals.get ⟨i, h1⟩) (st2.withdrawals.get ⟨i, h2⟩) ∧
          ((st.withdrawals.get ⟨i, h1⟩).txHash = w.txHash →
            (st2.withdrawals.get ⟨i, h2⟩).l1BlockHash = w.l1BlockHash) ∧
          ((st.withdrawals.get ⟨i, h1⟩).txHash ≠ w.txHash →
            st2.withdrawals.get ⟨i, h2⟩ = st.withdrawals.get ⟨i, h1⟩) := by
  intro st w r hr hx hfk
  have hconf : st.withdrawals.any (fun r2 => r2.txHash = w.txHash) = true :=
    List.any_eq_true.mpr ⟨r, hr, by simp [hx]⟩
  have hstmt : insertWithdrawalL1Stmt st w = .ok { st with
      withdrawals := st.withdrawals.map (fun r2 =>
        if r2.txHash = w.txHash then { r2 with l1BlockHash := w.l1BlockHash } else r2) } := by
    unfold insertWithdrawalL1Stmt
    cases hl : w.l1BlockHash with
    | none => simp [hconf, hl]
    | some h2 => simp [hconf, hl, hfk h2 hl]
  refine ⟨{ st with withdrawals := st.withdrawals.map (fun r2 =>
      if r2.txHash = w.txHash then { r2 with l1BlockHash := w.l1BlockHash } else r2) },
    hstmt, rfl, rfl, rfl, rfl, rfl, by simp, ?_⟩
  intro i h1 h2
  simp only [List.get_eq_getElem, List.getElem_map]
  refine ⟨?_, ?_, ?_⟩
  · split
    · exact ⟨rfl, rfl, rfl, rfl, rfl, rfl, rfl, rfl, rfl, rfl⟩
    · exact sameExceptL1Link_refl _
  · intro hmatch
    simp [hmatch]
  · intro hmiss
    simp [hmiss]

/-- The state inside AddIndexedL1Block right after inserting origin
block 0xO, with the initiation-phase row of 0xabc already present:
l1_blocks holds the block the new origin link refers to. -/
def stC7 : DBState :=
  ⟨[], [], [⟨"0xO", "0xO0", 9, 90⟩], [⟨"0xD", "0xD0", 5, 50⟩], [],
   [⟨0, "alice", "bob", "t1", "t2", "100", "0xabc", 0, none, some "0xD", "dat"⟩], 1⟩

/-- Witness for C7: updating the initiation-phase row of 0xabc with the
origin block 0xO, which is present in l1_blocks so the foreign key on
the new link holds. -/
theorem c7_witness :
    ∃ st2, insertWithdrawalL1Stmt stC7
        ⟨1, "alice", "bob", "t1", "t2", "100", "0xabc", 0, some "0xO", none, "dat"⟩ = .ok st2 ∧
      st2.l1Tokens = stC7.l1Tokens ∧
      st2.l2Tokens = stC7.l2Tokens ∧
      st2.l1Blocks = stC7.l1Blocks ∧
      st2.l2Blocks = stC7.l2Blocks ∧
      st2.deposits = stC7.deposits ∧
      st2.withdrawals.length = stC7.withdrawals.length ∧
      ∀ (i : Nat) (h1 : i < stC7.withdrawals.length)
        (h2 : i < st2.withdrawals.length),
        sameExceptL1Link (stC7.withdrawals.get ⟨i, h1⟩)
          (st2.withdrawals.get ⟨i, h2⟩) ∧
        ((stC7.withdrawals.get ⟨i, h1⟩).txHash = "0xabc" →
          (st2.withdrawals.get ⟨i, h2⟩).l1BlockHash = some "0xO") ∧
        ((stC7.withdrawals.get ⟨i, h1⟩).txHash ≠ "0xabc" →
          st2.withdrawals.get ⟨i, h2⟩ =
            stC7.withdrawals.get ⟨i, h1⟩) :=
  c7_upsert_updates_only_origin_link stC7
    ⟨1, "alice", "bob", "t1", "t2", "100", "0xabc", 0, some "0xO", none, "dat"⟩
    ⟨0, "alice", "bob", "t1", "t2", "100", "0xabc", 0, none, some "0xD", "dat"⟩
    (by decide) (by decide)
    (by
      intro h hh
      injection hh with hh2
      subst hh2
      decide)

/-- A table evolved purely by appending rows: every old row is still
present, unchanged and in place. -/
def tableExtended {α : Type} (old new : List α) : Prop :=
  ∃ tail, new = old ++ tail

theorem tableExtended_refl {α : Type} (l : List α) : tableExtended l l :=
  ⟨[], by simp⟩

theorem tableExtended_trans {α : Type} {a b c : List α}
    (h1 : tableExtended a b) (h2 : tableExtended b c) : tableExtended a c := by
  obtain ⟨t1, rfl⟩ := h1
  obtain ⟨t2, rfl⟩ := h2
  exact ⟨t1 ++ t2, by simp⟩

/-- The withdrawals table evolved without deleting rows and without
touching any column other than l1_block_hash: every old row is still at
its index with at most its origin linkage rewritten. -/
def withdrawalsEvolve (old new : List WithdrawalRow) : Prop :=
  old.length ≤ new.length ∧
  ∀ (i : Nat) (h1 : i < old.length) (h2 : i < new.length),
    sameExceptL1Link (old.get ⟨i, h1⟩) (new.get ⟨i, h2⟩)

theorem withdrawalsEvolve_refl (l : List WithdrawalRow) : withdrawalsEvolve l l :=
  ⟨le_refl _, fun _ _ _ => sameExceptL1Link_refl _⟩

theorem withdrawalsEvolve_trans {a b c : List WithdrawalRow}
    (h1 : withdrawalsEvolve a b) (h2 : withdrawalsEvolve b c) :
    withdrawalsEvolve a c := by
  obtain ⟨l1, p1⟩ := h1
  obtain ⟨l2, p2⟩ := h2
  refine ⟨l1.trans l2, fun i hi1 hi2 => ?_⟩
  exact sameExceptL1Link_trans (p1 i hi1 (lt_of_lt_of_le hi1 l1))
    (p2 i (lt_of_lt_of_le hi1 l1) hi2)

theorem withdrawalsEvolve_of_extended {old new : List WithdrawalRow}
    (h : tableExtended old new) : withdrawalsEvolve old new := by
  obtain ⟨tail, rfl⟩ := h
  refine ⟨by simp, fun i hi1 hi2 => ?_⟩
  simp only [List.get_eq_getElem, List.getElem_append_left hi1]
  exact sameExceptL1Link_refl _

theorem withdrawalsEvolve_map (l : List WithdrawalRow)
    (f : WithdrawalRow → WithdrawalRow) (hf : ∀ r, sameExceptL1Link r (f r)) :
    withdrawalsEvolve l (l.map f) := by
  refine ⟨by simp, fun i hi1 hi2 => ?_⟩
  simp only [List.get_eq_getElem, List.getElem_map]
  exact hf _

/-- All tables evolved by appends only, except that withdrawal rows may
additionally have their l1_block_hash column rewritten: nothing was
deleted, token rows (and blocks and deposits) were not mutated. -/
def rowsPreserved (st st2 : DBState) : Prop :=
  tableExtended st.l1Tokens st2.l1Tokens ∧
  tableExtended st.l2Tokens st2.l2Tokens ∧
  tableExtended st.l1Blocks st2.l1Blocks ∧
  tableExtended st.l2Blocks st2.l2Blocks ∧
  tableExtended st.deposits st2.deposits ∧
  withdrawalsEvolve st.withdrawals st2.withdrawals

theorem rowsPreserved_refl (st : DBState) : rowsPreserved st st :=
  ⟨tableExtended_refl _, tableExtended_refl _, tableExtended_refl _,
   tableExtended_refl _, tableExtended_refl _, withdrawalsEvolve_refl _⟩

theorem rowsPreserved_trans {a b c : DBState}
    (h1 : rowsPreserved a b) (h2 : rowsPreserved b c) : rowsPreserved a c :=
  ⟨tableExtended_trans h1.1 h2.1, tableExtended_trans h1.2.1 h2.2.1,
   tableExtended_trans h1.2.2.1 h2.2.2.1,
   tableExtended_trans h1.2.2.2.1 h2.2.2.2.1,
   tableExtended_trans h1.2.2.2.2.1 h2.2.2.2.2.1,
   withdrawalsEvolve_trans h1.2.2.2.2.2 h2.2.2.2.2.2⟩

theorem insertL1BlockStmt_ok {st : DBState} {b : BlockRow} {st2 : DBState}
    (h : insertL1BlockStmt st b = .ok st2) :
    st2 = { st with l1Blocks := st.l1Blocks ++ [b] } := by
  unfold insertL1BlockStmt at h
  split at h
  · cases h
  · cases h; rfl

theorem insertL2BlockStmt_ok {st : DBState} {b : BlockRow} {st2 : DBState}
    (h : insertL2BlockStmt st b = .ok st2) :
    st2 = { st with l2Blocks := st.l2Blocks ++ [b] } := by
  unfold insertL2BlockStmt at h
  split at h
  · cases h
  · cases h; rfl

theorem insertDepositStmt_ok {st : DBState} {d : DepositRow} {st2 : DBState}
    (h : insertDepositStmt st d = .ok st2) :
    st2 = { st with deposits := st.deposits ++ [d] } := by
  unfold insertDepositStmt at h
  split at h
  · cases h; rfl
  · cases h

theorem insertWithdrawalL1Stmt_ok {st : DBState} {w : WithdrawalRow} {st2 : DBState}
    (h : insertWithdrawalL1Stmt st w = .ok st2) :
    st2 = { st with withdrawals := st.withdrawals.map (fun r =>
        if r.txHash = w.txHash then { r with l1BlockHash := w.l1BlockHash } else r) } ∨
    st2 = { st with withdrawals := st.withdrawals ++ [w] } := by
  unfold insertWithdrawalL1Stmt at h
  split at h
  · split at h
    · split at h
      · cases h; exact Or.inl rfl
      · cases h
    · cases h; exact Or.inl rfl
  · split at h
    · split at h
      · cases h; exact Or.inr rfl
      · cases h
    · cases h; exact Or.inr rfl

theorem insertWithdrawalL2Stmt_ok {st : DBState} {w : WithdrawalRow} {st2 : DBState}
    (h : insertWithdrawalL2Stmt st w = .ok st2) :
    st2 = { st with withdrawals := st.withdrawals ++ [w] } := by
  unfold insertWithdrawalL2Stmt at h
  split at h
  · cases h
  · split at h
    · split at h
      · cases h; rfl
      · cases h
    · cases h; rfl

theorem insertDepositsLoop_ok_preserves (bh : String) :
    ∀ (ds : List Deposit) (st st2 : DBState),
      insertDepositsLoop bh st ds = .ok st2 →
      st2.l1Tokens = st.l1Tokens ∧ st2.l2Tokens = st.l2Tokens ∧
      st2.l1Blocks = st.l1Blocks ∧ st2.l2Blocks = st.l2Blocks ∧
      st2.withdrawals = st.withdrawals ∧ tableExtended st.deposits st2.deposits := by
  intro ds
  induction ds with
  | nil =>
    intro st st2 h
    simp only [insertDepositsLoop] at h
    cases h
    exact ⟨rfl, rfl, rfl, rfl, rfl, tableExtended_refl _⟩
  | cons d rest ih =>
    intro st st2 h
    simp only [insertDepositsLoop, NewGUID] at h
    cases heq : insertDepositStmt { st with nextGuid := st.nextGuid + 1 }
        (depositRowOfEvent st.nextGuid bh d) with
    | error e => rw [heq] at h; cases h
    | ok st1 =>
      rw [heq] at h
      have hp := ih st1 st2 h
      have he := insertDepositStmt_ok heq
      subst he
      exact ⟨hp.1, hp.2.1, hp.2.2.1, hp.2.2.2.1, hp.2.2.2.2.1,
        tableExtended_trans ⟨[depositRowOfEvent st.nextGuid bh d], rfl⟩ hp.2.2.2.2.2⟩

theorem insertWithdrawalsL1Loop_ok_preserves (bh : String) :
    ∀ (ws : List Withdrawal) (st st2 : DBState),
      insertWithdrawalsL1Loop bh st ws = .ok st2 →
      st2.l1Tokens = st.l1Tokens ∧ st2.l2Tokens = st.l2Tokens ∧
      st2.l1Blocks = st.l1Blocks ∧ st2.l2Blocks = st.l2Blocks ∧
      st2.deposits = st.deposits ∧
      withdrawalsEvolve st.withdrawals st2.withdrawals := by
  intro ws
  induction ws with
  | nil =>
    intro st st2 h
    simp only [insertWithdrawalsL1Loop] at h
    cases h
    exact ⟨rfl, rfl, rfl, rfl, rfl, withdrawalsEvolve_refl _⟩
  | cons w rest ih =>
    intro st st2 h
    simp only [insertWithdrawalsL1Loop, NewGUID] at h
    cases heq : insertWithdrawalL1Stmt { st with nextGuid := st.nextGuid + 1 }
        (withdrawalRowOfL1Event st.nextGuid bh w) with
    | error e => rw [heq] at h; cases h
    | ok st1 =>
      rw [heq] at h
      have hp := ih st1 st2 h
      have hstep : withdrawalsEvolve st.withdrawals st1.withdrawals := by
        cases insertWithdrawalL1Stmt_ok heq with
        | inl he =>
          subst he
          exact withdrawalsEvolve_map _ _ (fun r => by
            split
            · exact ⟨rfl, rfl, rfl, rfl, rfl, rfl, rfl, rfl, rfl, rfl⟩
            · exact sameExceptL1Link_refl _)
        | inr he =>
          subst he
          exact withdrawalsEvolve_of_extended
            ⟨[withdrawalRowOfL1Event st.nextGuid bh w], rfl⟩
      have hfields : st1.l1Tokens = st.l1Tokens ∧ st1.l2Tokens = st.l2Tokens ∧
          st1.l1Blocks = st.l1Blocks ∧ st1.l2Blocks = st.l2Blocks ∧
          st1.deposits = st.deposits := by
        cases insertWithdrawalL1Stmt_ok heq with
        | inl he => subst he; exact ⟨rfl, rfl, rfl, rfl, rfl⟩
        | inr he => subst he; exact ⟨rfl, rfl, rfl, rfl, rfl⟩
      refine ⟨hp.1.trans hfields.1, hp.2.1.trans hfields.2.1,
        hp.2.2.1.trans hfields.2.2.1, hp.2.2.2.1.trans hfields.2.2.2.1,
        hp.2.2.2.2.1.trans hfields.2.2.2.2, ?_⟩
      exact withdrawalsEvolve_trans hstep hp.2.2.2.2.2

theorem insertWithdrawalsL2Loop_ok_preserves (bh : String) :
    ∀ (ws : List Withdrawal) (st st2 : DBState),
      insertWithdrawalsL2Loop bh st ws = .ok st2 →
      st2.l1Tokens = st.l1Tokens ∧ st2.l2Tokens = st.l2Tokens ∧
      st2.l1Blocks = st.l1Blocks ∧ st2.l2Blocks = st.l2Blocks ∧
      st2.deposits = st.deposits ∧
      tableExtended st.withdrawals st2.withdrawals := by
  intro ws
  induction ws with
  | nil =>
    intro st st2 h
    simp only [insertWithdrawalsL2Loop] at h
    cases h
    exact ⟨rfl, rfl, rfl, rfl, rfl, tableExtended_refl _⟩
  | cons w rest ih =>
    intro st st2 h
    simp only [insertWithdrawalsL2Loop, NewGUID] at h
    cases heq : insertWithdrawalL2Stmt { st with nextGuid := st.nextGuid + 1 }
        (withdrawalRowOfL2Event st.nextGuid bh w) with
    | error e => rw [heq] at h; cases h
    | ok st1 =>
      rw [heq] at h
      have hp := ih st1 st2 h
      have he := insertWithdrawalL2Stmt_ok heq
      subst he
      exact ⟨hp.1, hp.2.1, hp.2.2.1, hp.2.2.2.1, hp.2.2.2.2.1,
        tableExtended_trans ⟨[withdrawalRowOfL2Event st.nextGuid bh w], rfl⟩
          hp.2.2.2.2.2⟩

theorem addIndexedL1BlockBody_ok_preserves {b : IndexedL1Block} {st st2 : DBState}
    (h : addIndexedL1BlockBody b st = .ok st2) : rowsPreserved st st2 := by
  unfold addIndexedL1BlockBody at h
  split at h
  · cases h
  next st1 heq =>
    have hb := insertL1BlockStmt_ok heq
    have hpre1 : rowsPreserved st st1 := by
      subst hb
      exact ⟨tableExtended_refl _, tableExtended_refl _,
        ⟨[⟨b.hash, b.parentHash, b.number, b.timestamp⟩], rfl⟩,
        tableExtended_refl _, tableExtended_refl _, withdrawalsEvolve_refl _⟩
    split at h
    · cases h; exact hpre1
    · split at h
      · cases h
      next stx heq2 =>
        have hp2 := insertDepositsLoop_ok_preserves b.hash b.deposits st1 stx heq2
        have hpre2 : rowsPreserved st1 stx :=
          ⟨hp2.1 ▸ tableExtended_refl _, hp2.2.1 ▸ tableExtended_refl _,
           hp2.2.2.1 ▸ tableExtended_refl _, hp2.2.2.2.1 ▸ tableExtended_refl _,
           hp2.2.2.2.2.2, hp2.2.2.2.2.1 ▸ withdrawalsEvolve_refl _⟩
        split at h
        · cases h; exact rowsPreserved_trans hpre1 hpre2
        · have hp3 := insertWithdrawalsL1Loop_ok_preserves b.hash b.withdrawals stx st2 h
          have hpre3 : rowsPreserved stx st2 :=
            ⟨hp3.1 ▸ tableExtended_refl _, hp3.2.1 ▸ tableExtended_refl _,
             hp3.2.2.1 ▸ tableExtended_refl _, hp3.2.2.2.1 ▸ tableExtended_refl _,
             hp3.2.2.2.2.1 ▸ tableExtended_refl _, hp3.2.2.2.2.2⟩
          exact rowsPreserved_trans hpre1 (rowsPreserved_trans hpre2 hpre3)

theorem addIndexedL2BlockBody_ok_preserves {b : IndexedL2Block} {st st2 : DBState}
    (h : addIndexedL2BlockBody b st = .ok st2) : rowsPreserved st st2 := by
  unfold addIndexedL2BlockBody at h
  split at h
  · cases h
  next st1 heq =>
    have hb := insertL2BlockStmt_ok heq
    have hpre1 : rowsPreserved st st1 := by
      subst hb
      exact ⟨tableExtended_refl _, tableExtended_refl _, tableExtended_refl _,
        ⟨[⟨b.hash, b.parentHash, b.number, b.timestamp⟩], rfl⟩,
        tableExtended_refl _, withdrawalsEvolve_refl _⟩
    split at h
    · cases h; exact hpre1
    · have hp2 := insertWithdrawalsL2Loop_ok_preserves b.hash b.withdrawals st1 st2 h
      have hpre2 : rowsPreserved st1 st2 :=
        ⟨hp2.1 ▸ tableExtended_refl _, hp2.2.1 ▸ tableExtended_refl _,
         hp2.2.2.1 ▸ tableExtended_refl _, hp2.2.2.2.1 ▸ tableExtended_refl _,
         hp2.2.2.2.2.1 ▸ tableExtended_refl _,
         withdrawalsEvolve_of_extended hp2.2.2.2.2.2⟩
      exact rowsPreserved_trans hpre1 hpre2

/-- C10: no operation of the core deletes a row; a token row, once
inserted by AddL1Token or AddL2Token, is never mutated by any
operation; and the only column any write ever changes on an existing
row is the withdrawal l1_block_hash linkage of the correlation upsert
(queries take the state as a read-only argument and return no state). -/
theorem c10_no_deletion_tokens_immutable :
    ∀ (st : DBState),
      (∀ (a : String) (t : Token), rowsPreserved st (AddL1Token st a t).1) ∧
      (∀ (a : String) (t : Token), rowsPreserved st (AddL2Token st a t).1) ∧
      (∀ (b : IndexedL1Block), rowsPreserved st (AddIndexedL1Block st b).1) ∧
      (∀ (b : IndexedL2Block), rowsPreserved st (AddIndexedL2Block st b).1) := by
  intro st
  refine ⟨?_, ?_, ?_, ?_⟩
  · intro a t
    by_cases hc : (st.l1Tokens.any fun r => r.address = a) = true
    · have hrw : AddL1Token st a t = (st, some (.uniqueViolation "l1_tokens_pkey")) := by
        simp [AddL1Token, txn, hc]
      rw [hrw]
      exact rowsPreserved_refl st
    · have hrw : AddL1Token st a t =
          ({ st with l1Tokens := st.l1Tokens ++ [⟨a, t.name, t.symbol, t.decimals⟩] }, none) := by
        simp [AddL1Token, txn, hc]
      rw [hrw]
      exact ⟨⟨[⟨a, t.name, t.symbol, t.decimals⟩], rfl⟩, tableExtended_refl _,
        tableExtended_refl _, tableExtended_refl _, tableExtended_refl _,
        withdrawalsEvolve_refl _⟩
  · intro a t
    by_cases hc : (st.l2Tokens.any fun r => r.address = a) = true
    · have hrw : AddL2Token st a t = (st, some (.uniqueViolation "l2_tokens_pkey")) := by
        simp [AddL2Token, txn, hc]
      rw [hrw]
      exact rowsPreserved_refl st
    · have hrw : AddL2Token st a t =
          ({ st with l2Tokens := st.l2Tokens ++ [⟨a, t.name, t.symbol, t.decimals⟩] }, none) := by
        simp [AddL2Token, txn, hc]
      rw [hrw]
      exact ⟨tableExtended_refl _, ⟨[⟨a, t.name, t.symbol, t.decimals⟩], rfl⟩,
        tableExtended_refl _, tableExtended_refl _, tableExtended_refl _,
        withdrawalsEvolve_refl _⟩
  · intro b
    unfold AddIndexedL1Block txn
    split
    · next heq => exact addIndexedL1BlockBody_ok_preserves heq
    · exact rowsPreserved_refl st
  · intro b
    unfold AddIndexedL2Block txn
    split
    · next heq => exact addIndexedL2BlockBody_ok_preserves heq
    · exact rowsPreserved_refl st

/-- A state holding the withdrawal 0xabc with both block links present
but its l2 token not registered. -/
def stUnreg : DBState :=
  ⟨[], [], [⟨"0xO", "0xO0", 9, 90⟩], [⟨"0xD", "0xD0", 5, 50⟩], [],
   [⟨0, "alice", "bob", "t1", "t2", "100", "0xabc", 0, some "0xO", some "0xD", "dat"⟩], 1⟩

/-- C9 (counterexample): a withdrawal whose l2 token is unregistered is
indeed excluded by the status join, but GetWithdrawalStatus does not
report it as absent: the call panics through the nil result pointer, so
the claim that it is reported absent fails. -/
theorem c9_counterexample :
    (∀ t ∈ stUnreg.l2Tokens, t.address ≠ "t2") ∧
    withdrawalStatusRows stUnreg "0xabc" = [] ∧
    GetWithdrawalStatus stUnreg "0xabc" ≠ .ok none := by
  refine ⟨by decide, by decide, by decide⟩

/-- A flatMap whose function returns the empty list is empty. -/
theorem flatMap_nil_fun {α β : Type} (l : List α) :
    l.flatMap (fun _ => ([] : List β)) = [] := by
  induction l with
  | nil => rfl
  | cons a t ih => simp [List.flatMap_cons, ih]

/-- The deposit join does not read the deposits table itself. -/
theorem depositJoinRows_deposits_irrel (st : DBState) (X : List DepositRow) :
    depositJoinRows { st with deposits := X } = depositJoinRows st := rfl

/-- The withdrawal listing join does not read the withdrawals table
itself. -/
theorem withdrawalListJoinRows_withdrawals_irrel (st : DBState)
    (X : List WithdrawalRow) :
    withdrawalListJoinRows { st with withdrawals := X } =
      withdrawalListJoinRows st := rfl

/-- Appending a deposit whose l1 token is unregistered leaves the
matching join rows unchanged. -/
theorem depositsMatching_append_unreg (st : DBState) (d : DepositRow)
    (addr : String) (hT : ∀ t ∈ st.l1Tokens, t.address ≠ d.l1Token) :
    depositsMatching { st with deposits := st.deposits ++ [d] } addr =
      depositsMatching st addr := by
  have htok : st.l1Tokens.filter (fun t => t.address = d.l1Token) = [] := by
    rw [List.filter_eq_nil_iff]
    intro t ht
    simp [hT t ht]
  unfold depositsMatching
  rw [List.filter_append, List.flatMap_append, depositJoinRows_deposits_irrel]
  by_cases hp : d.fromAddress = addr
  · simp [hp, depositJoinRows, htok, flatMap_nil_fun]
  · simp [hp]

/-- Appending a withdrawal whose l2 token is unregistered leaves the
matching join rows of the listing query unchanged. -/
theorem withdrawalsMatching_append_unreg (st : DBState) (w : WithdrawalRow)
    (addr : String) (hT : ∀ t ∈ st.l2Tokens, t.address ≠ w.l2Token) :
    withdrawalsMatching { st with withdrawals := st.withdrawals ++ [w] } addr =
      withdrawalsMatching st addr := by
  have htok : st.l2Tokens.filter (fun t => t.address = w.l2Token) = [] := by
    rw [List.filter_eq_nil_iff]
    intro t ht
    simp [hT t ht]
  unfold withdrawalsMatching
  rw [List.filter_append, List.flatMap_append,
    withdrawalListJoinRows_withdrawals_irrel]
  by_cases hp : w.fromAddress = addr
  · simp [hp, withdrawalListJoinRows, htok, flatMap_nil_fun]
  · simp [hp]

/-- Appending a withdrawal whose l2 token is unregistered leaves the
status join rows unchanged for every hash. -/
theorem withdrawalStatusRows_append_unreg (st : DBState) (w : WithdrawalRow)
    (h2 : String) (hT : ∀ t ∈ st.l2Tokens, t.address ≠ w.l2Token) :
    withdrawalStatusRows { st with withdrawals := st.withdrawals ++ [w] } h2 =
      withdrawalStatusRows st h2 := by
  have htok : st.l2Tokens.filter (fun t => t.address = w.l2Token) = [] := by
    rw [List.filter_eq_nil_iff]
    intro t ht
    simp [hT t ht]
  unfold withdrawalStatusRows
  rw [List.filter_append, List.flatMap_append]
  by_cases hp : w.txHash = h2
  · simp [hp, htok, flatMap_nil_fun]
  · simp [hp]

/-- C9 (amended): a deposit whose l1 token is unregistered is invisible
to GetDepositsByAddress (items and total both unchanged by its
presence), and a withdrawal whose l2 token is unregistered is likewise
invisible to GetWithdrawalsByAddress and never joined by the
GetWithdrawalStatus query; that lookup, however, reports a nil-pointer
panic rather than an absent result. -/
theorem c9_unregistered_token_rows_invisible :
    ∀ (st : DBState) (addr : String) (page : PaginationParam),
      (∀ (d : DepositRow), (∀ t ∈ st.l1Tokens, t.address ≠ d.l1Token) →
        GetDepositsByAddress { st with deposits := st.deposits ++ [d] } addr page =
          GetDepositsByAddress st addr page) ∧
      (∀ (w : WithdrawalRow), (∀ t ∈ st.l2Tokens, t.address ≠ w.l2Token) →
        GetWithdrawalsByAddress { st with withdrawals := st.withdrawals ++ [w] } addr page =
          GetWithdrawalsByAddress st addr page ∧
        (∀ h2, withdrawalStatusRows { st with withdrawals := st.withdrawals ++ [w] } h2 =
          withdrawalStatusRows st h2) ∧
        (∀ h2 v, GetWithdrawalStatus { st with withdrawals := st.withdrawals ++ [w] } h2 ≠
          .ok (some v))) := by
  intro st addr page
  constructor
  · intro d hT
    have hm := depositsMatching_append_unreg st d addr hT
    simp [GetDepositsByAddress, sortedDeposits, hm]
  · intro w hT
    refine ⟨?_, ?_, ?_⟩
    · have hm := withdrawalsMatching_append_unreg st w addr hT
      simp [GetWithdrawalsByAddress, sortedWithdrawals, hm]
    · intro h2
      exact withdrawalStatusRows_append_unreg st w h2 hT
    · intro h2 v
      simp [GetWithdrawalStatus]

/-- Witness for the amended C9: adding rows referencing the
unregistered token tX to the joined example state changes neither
listing. -/
theorem c9_witness :
    GetDepositsByAddress { stJoined with deposits := stJoined.deposits ++
        [⟨7, "alice", "bob", "tX", "t2", "1", "0xd1", 0, "0xO", "x"⟩] } "alice" ⟨10, 0, 0⟩ =
      GetDepositsByAddress stJoined "alice" ⟨10, 0, 0⟩ ∧
    GetWithdrawalsByAddress { stJoined with withdrawals := stJoined.withdrawals ++
        [⟨9, "alice", "bob", "t1", "tX", "2", "0xw9", 0, none, some "0xD", "x"⟩] } "alice" ⟨10, 0, 0⟩ =
      GetWithdrawalsByAddress stJoined "alice" ⟨10, 0, 0⟩ :=
  ⟨(c9_unregistered_token_rows_invisible stJoined "alice" ⟨10, 0, 0⟩).1
     ⟨7, "alice", "bob", "tX", "t2", "1", "0xd1", 0, "0xO", "x"⟩ (by decide),
   ((c9_unregistered_token_rows_invisible stJoined "alice" ⟨10, 0, 0⟩).2
     ⟨9, "alice", "bob", "t1", "tX", "2", "0xw9", 0, none, some "0xD", "x"⟩ (by decide)).1⟩

/-- Concatenating the page windows of size k that cover a whole list
reproduces the list exactly. -/
theorem pagesConcat_eq {α : Type} :
    ∀ (m k : Nat) (l : List α), 0 < k → l.length ≤ m * k →
      (List.range m).flatMap (fun i => (l.drop (i * k)).take k) = l := by
  intro m
  induction m with
  | zero =>
    intro k l _ hl
    have h0 : l = [] := List.eq_nil_of_length_eq_zero (by omega)
    subst h0
    rfl
  | succ m ih =>
    intro k l hk hl
    rw [List.range_succ_eq_map, List.flatMap_cons, List.flatMap_map]
    have h2 : (fun a => (l.drop (Nat.succ a * k)).take k) =
        (fun a => (((l.drop k).drop (a * k))).take k) := by
      funext a
      rw [List.drop_drop]
      congr 2
      rw [Nat.succ_mul]
      omega
    have h4 : l.length ≤ m * k + k := by rw [← Nat.succ_mul]; exact hl
    rw [h2, ih k (l.drop k) hk (by rw [List.length_drop]; omega)]
    simp [List.take_append_drop]

/-- C6: the total returned by both listing queries is the count of rows
matching the same join and from_address filter as the page (never the
raw table size), and stepping the offset by the limit concatenates to
exactly the full ordered result, a permutation of all matching rows
(no duplication, no omission). -/
theorem c6_pagination_total_and_pages :
    ∀ (st : DBState) (addr : String),
      (∀ (page : PaginationParam),
        (GetDepositsByAddress st addr page).1.total = (depositsMatching st addr).length ∧
        (GetWithdrawalsByAddress st addr page).1.total = (withdrawalsMatching st addr).length) ∧
      (∀ (k m : Nat), 0 < k → (depositsMatching st addr).length ≤ m * k →
        (List.range m).flatMap (fun i => (GetDepositsByAddress st addr ⟨k, i * k, 0⟩).2) =
          sortedDeposits st addr ∧
        (sortedDeposits st addr).Perm (depositsMatching st addr)) ∧
      (∀ (k m : Nat), 0 < k → (withdrawalsMatching st addr).length ≤ m * k →
        (List.range m).flatMap (fun i => (GetWithdrawalsByAddress st addr ⟨k, i * k, 0⟩).2) =
          sortedWithdrawals st addr ∧
        (sortedWithdrawals st addr).Perm (withdrawalsMatching st addr)) := by
  intro st addr
  refine ⟨fun page => ⟨rfl, rfl⟩, fun k m hk hm => ⟨?_, List.perm_insertionSort _ _⟩,
    fun k m hk hm => ⟨?_, List.perm_insertionSort _ _⟩⟩
  · exact pagesConcat_eq m k (sortedDeposits st addr) hk
      (by rw [sortedDeposits, List.length_insertionSort]; exact hm)
  · exact pagesConcat_eq m k (sortedWithdrawals st addr) hk
      (by rw [sortedWithdrawals, List.length_insertionSort]; exact hm)

/-- A state with one fully joined deposit and one fully joined
withdrawal for alice, used to witness the pagination theorem. -/
def stPag : DBState :=
  ⟨[⟨"t1", "TokenOne", "T1", 18⟩], [⟨"t2", "TokenTwo", "T2", 18⟩],
   [⟨"0xO", "0xO0", 9, 90⟩], [⟨"0xD", "0xD0", 5, 50⟩],
   [⟨0, "alice", "bob", "t1", "t2", "7", "0xdep", 1, "0xO", "dd"⟩],
   [⟨1, "alice", "bob", "t1", "t2", "100", "0xabc", 0, some "0xO", some "0xD", "dat"⟩], 2⟩

/-- Witness for C6 at the concrete state with one matching row per
listing, limit 1 and one page. -/
theorem c6_witness :
    (GetDepositsByAddress stPag "alice" ⟨1, 0, 0⟩).1.total =
      (depositsMatching stPag "alice").length ∧
    (List.range 1).flatMap (fun i => (GetDepositsByAddress stPag "alice" ⟨1, i * 1, 0⟩).2) =
      sortedDeposits stPag "alice" ∧
    (sortedWithdrawals stPag "alice").Perm (withdrawalsMatching stPag "alice") := by
  have h := c6_pagination_total_and_pages stPag "alice"
  exact ⟨(h.1 ⟨1, 0, 0⟩).1, (h.2.1 1 1 (by decide) (by decide)).1,
    (h.2.2 1 1 (by decide) (by decide)).2⟩
